import Mathlib

/-!
Verification of the Behavana service worker (src/service-worker.js).

The worker is modelled as pure state-passing functions over an explicit
cache storage: the browser's `caches` object is an association list from
generation names to caches, and each cache is an association list from
stored requests to response snapshots.  The network is a function from
requests to `Option Response`; `none` models a fetch that throws
(offline, DNS failure, ...).
-/

/-- A URL as the worker observes it: the full href together with the
`origin` and `protocol` components read off `new URL(request.url)`. -/
structure Url where
  full : String
  origin : String
  protocol : String
deriving DecidableEq, Repr

/-- A request: its URL, its HTTP method and its `destination` field. -/
structure Request where
  url : Url
  method : String
  destination : String
deriving DecidableEq, Repr

/-- A response snapshot: status code, status text and body bytes. -/
structure Response where
  status : Nat
  statusText : String
  body : String
deriving DecidableEq, Repr

/-- `response.ok`: the status code lies in the 200-299 success range. -/
def Response.ok (r : Response) : Bool := 200 ≤ r.status && r.status ≤ 299

/-- One cache generation: stored (request, response snapshot) pairs. -/
abbrev Cache := List (Request × Response)

/-- The `caches` object: named cache generations. -/
abbrev CacheStorage := List (String × Cache)

/-- The network: `none` models a fetch that throws. -/
def Network := Request → Option Response

/-! Configuration constants, from lines 7-24 of the source. -/

def CACHE_NAME : String := "behavana-v1.0.0"

def CACHE_URLS : List String :=
  ["./", "./index.html", "./styles.css", "./manifest.json"]

def EXTERNAL_CACHE_NAME : String := "behavana-external-v1"

def EXTERNAL_URLS : List String :=
  ["https://fonts.googleapis.com/css2?family=Inter:wght@300;400;500;600;700;800&display=swap",
   "https://fonts.gstatic.com/s/inter/v12/UcCO3FwrK3iLTeHuS_fvQtMwCp50KnMw2boKoduKmMEVuLyfAZ9hiA.woff2"]

def DATA_CACHE_NAME : String := "behavana-data-v1"

/-! Cache API primitives. -/

/-- Look up a key (a URL string) inside one cache generation. -/
def entryGet (c : Cache) (key : String) : Option Response :=
  (c.find? (fun e => e.1.url.full == key)).map (fun e => e.2)

/-- `cache.put(request, response)`: overwrite the entry for the request's
URL if present, else append a new entry (at most one entry per URL). -/
def entryPut (c : Cache) (req : Request) (resp : Response) : Cache :=
  if c.any (fun e => e.1.url.full == req.url.full) then
    c.map (fun e => if e.1.url.full == req.url.full then (req, resp) else e)
  else c ++ [(req, resp)]

/-- `caches.open(name)`: create the named generation if absent. -/
def cachesOpen (s : CacheStorage) (name : String) : CacheStorage :=
  if s.any (fun c => c.1 == name) then s else s ++ [(name, [])]

/-- The contents of the named generation, if it exists. -/
def cacheGet (s : CacheStorage) (name : String) : Option Cache :=
  (s.find? (fun c => c.1 == name)).map (fun c => c.2)

/-- `cache.put` on the named generation of the storage. -/
def cachePut (s : CacheStorage) (name : String) (req : Request) (resp : Response) :
    CacheStorage :=
  s.map (fun c => if c.1 == name then (c.1, entryPut c.2 req resp) else c)

/-- Look up a key in one specific generation of the storage. -/
def lookupIn (s : CacheStorage) (name : String) (key : String) : Option Response :=
  match cacheGet s name with
  | some c => entryGet c key
  | none => none

/-- `caches.match(key)`: search every generation, first hit wins. -/
def cachesMatch (s : CacheStorage) (key : String) : Option Response :=
  s.findSome? (fun c => entryGet c.2 key)

/-- `caches.keys()`: the names of all generations. -/
def cachesKeys (s : CacheStorage) : List String := s.map (fun c => c.1)

/-- `caches.delete(name)`: remove the named generation. -/
def cachesDelete (s : CacheStorage) (name : String) : CacheStorage :=
  s.filter (fun c => c.1 != name)

/-! The worker's handlers, lines 29-185 of the source. -/

/-- `updateCache` (lines 153-164): background refresh; fetch, and on a
status-200 response overwrite the entry in the chosen generation.  Any
failure is swallowed silently. -/
def updateCache (net : Network) (request : Request) (cacheName : String)
    (s : CacheStorage) : CacheStorage :=
  match net request with
  | some networkResponse =>
      if networkResponse.status == 200 then
        cachePut (cachesOpen s cacheName) cacheName request networkResponse
      else s
  | none => s

/-- The synthesized offline response of line 146:
`new Response('', { status: 408, statusText: 'Offline' })`. -/
def offlineResponse : Response := { status := 408, statusText := "Offline", body := "" }

/-- `cacheFirstStrategy` (lines 112-148).  Note that the lookup on line
115 is `caches.match(request)`, which searches every generation, not only
`cacheName`; only the writes are directed at `cacheName`. -/
def cacheFirstStrategy (net : Network) (request : Request) (cacheName : String)
    (s : CacheStorage) : Option Response × CacheStorage :=
  match cachesMatch s request.url.full with
  | some cachedResponse => (some cachedResponse, updateCache net request cacheName s)
  | none =>
      match net request with
      | some networkResponse =>
          if networkResponse.status == 200 then
            (some networkResponse,
             cachePut (cachesOpen s cacheName) cacheName request networkResponse)
          else (some networkResponse, s)
      | none =>
          if request.destination == "document" then
            (cachesMatch s "./index.html", s)
          else
            (some offlineResponse, s)

/-- What the fetch listener decides for a request: let it pass through
untouched, or answer it via `cacheFirstStrategy` on a chosen generation. -/
inductive FetchDecision where
  | passThrough : FetchDecision
  | respondWith : String → FetchDecision
deriving DecidableEq, Repr

/-- The fetch listener's routing (lines 83-106). -/
def fetchListener (request : Request) : FetchDecision :=
  if request.method != "GET" then FetchDecision.passThrough
  else if request.url.protocol == "chrome-extension:" then FetchDecision.passThrough
  else if request.url.origin == "https://fonts.googleapis.com"
       || request.url.origin == "https://fonts.gstatic.com" then
    FetchDecision.respondWith EXTERNAL_CACHE_NAME
  else FetchDecision.respondWith CACHE_NAME

/-- Outcome of one intercepted fetch event. -/
inductive FetchOutcome where
  | passThrough : FetchOutcome
  | responded : Response → FetchOutcome
  | respondedNothing : FetchOutcome
deriving DecidableEq, Repr

/-- One full fetch event: routing plus the cache-first strategy.
`respondedNothing` models `respondWith` resolving with no response
(the document fallback when `./index.html` is not cached). -/
def handleFetch (net : Network) (request : Request) (s : CacheStorage) :
    FetchOutcome × CacheStorage :=
  match fetchListener request with
  | FetchDecision.passThrough => (FetchOutcome.passThrough, s)
  | FetchDecision.respondWith cn =>
      match cacheFirstStrategy net request cn s with
      | (some r, s') => (FetchOutcome.responded r, s')
      | (none, s') => (FetchOutcome.respondedNothing, s')

/-- The GET request the Cache API issues for a URL handed to `addAll`. -/
def mkGetRequest (u : String) : Request :=
  { url := { full := u, origin := "", protocol := "" },
    method := "GET", destination := "" }

/-- Fetch every URL of the list; `cache.addAll` rejects as soon as one
fetch throws or one response is not in the success range. -/
def fetchAllOk (net : Network) : List String → Option (List (Request × Response))
  | [] => some []
  | u :: rest =>
      match net (mkGetRequest u) with
      | some r =>
          if r.ok then (fetchAllOk net rest).map (fun tl => (mkGetRequest u, r) :: tl)
          else none
      | none => none

/-- `caches.open(name)` followed by `cache.addAll(urls)`: all-or-nothing
bulk write of the fetched responses. -/
def cacheAddAll (net : Network) (s : CacheStorage) (name : String)
    (urls : List String) : Option CacheStorage :=
  match fetchAllOk net urls with
  | some pairs =>
      some (pairs.foldl (fun acc pr => cachePut acc name pr.1 pr.2) (cachesOpen s name))
  | none => none

/-- The install listener (lines 29-51): pre-populate the primary
generation (failure fails install, result `none`) and the external
generation (failure caught and logged), then `skipWaiting` (the `true`
flag of the result). -/
def installHandler (net : Network) (s : CacheStorage) : Option (CacheStorage × Bool) :=
  match cacheAddAll net s CACHE_NAME CACHE_URLS with
  | none => none
  | some s1 =>
      match cacheAddAll net s1 EXTERNAL_CACHE_NAME EXTERNAL_URLS with
      | some s2 => some (s2, true)
      | none => some (s1, true)

/-- The activate listener's cleanup (lines 56-77): enumerate all
generation names and delete every one that is not one of the three
recognized names. -/
def activateCleanup (s : CacheStorage) : CacheStorage :=
  (cachesKeys s).foldl
    (fun acc cacheName =>
      if cacheName != CACHE_NAME && cacheName != EXTERNAL_CACHE_NAME
         && cacheName != DATA_CACHE_NAME then
        cachesDelete acc cacheName
      else acc) s

/-- Payload of a client message event. -/
structure MessageData where
  type : String
deriving DecidableEq, Repr

/-- The `CLEAR_CACHE` action (lines 177-183): enumerate and delete every
generation. -/
def clearAllCaches (s : CacheStorage) : CacheStorage :=
  (cachesKeys s).foldl (fun acc cacheName => cachesDelete acc cacheName) s

/-- The message listener (lines 169-185).  Returns the storage after the
event and whether `skipWaiting` was requested. -/
def handleMessage (data : Option MessageData) (s : CacheStorage) :
    CacheStorage × Bool :=
  let skipRequested :=
    match data with
    | some d => d.type == "SKIP_WAITING"
    | none => false
  let s' :=
    match data with
    | some d => if d.type == "CLEAR_CACHE" then clearAllCaches s else s
    | none => s
  (s', skipRequested)

/-! The cache-entry invariant of the spec (section 3): every stored entry
was produced by a GET request and holds a success-status response. -/

def goodEntry (e : Request × Response) : Bool := e.1.method == "GET" && e.2.ok

def goodCache (c : Cache) : Bool := c.all goodEntry

def goodStore (s : CacheStorage) : Bool := s.all (fun c => goodCache c.2)

/-! Concrete fixtures used by witnesses and counterexamples. -/

/-- A network with no connectivity: every fetch throws. -/
def netFail : Network := fun _ => none

def exRespA : Response := { status := 200, statusText := "OK", body := "A" }

def exReqA : Request :=
  { url := { full := "https://example.com/a", origin := "https://example.com",
             protocol := "https:" },
    method := "GET", destination := "style" }

/-- A storage whose only entry for `exReqA` lives in the external
generation, while no primary generation exists at all. -/
def exStoreA : CacheStorage := [(EXTERNAL_CACHE_NAME, [(exReqA, exRespA)])]

def exReqPost : Request :=
  { url := { full := "https://example.com/api", origin := "https://example.com",
             protocol := "https:" },
    method := "POST", destination := "" }

def exIndexResp : Response := { status := 200, statusText := "OK", body := "<html>offline</html>" }

def exNavReq : Request :=
  { url := { full := "./missing.html", origin := "https://app.example",
             protocol := "https:" },
    method := "GET", destination := "document" }

def exStyleReq : Request :=
  { url := { full := "./missing.css", origin := "https://app.example",
             protocol := "https:" },
    method := "GET", destination := "style" }

/-- A storage holding only the pre-populated offline document. -/
def exStoreIndex : CacheStorage :=
  [(CACHE_NAME, [(mkGetRequest "./index.html", exIndexResp)])]

/-- C1: a GET request previously stored in a cache generation is answered
with the stored response by the cache-first strategy even when every
network fetch throws, and the storage is left unchanged. -/
theorem cacheFirst_hit_offline (net : Network) (r : Request) (cn : String)
    (s : CacheStorage) (resp : Response)
    (hnet : net r = none)
    (hhit : cachesMatch s r.url.full = some resp) :
    cacheFirstStrategy net r cn s = (some resp, s) := by
  simp [cacheFirstStrategy, hhit, updateCache, hnet]

theorem cacheFirst_hit_offline_witness :
    netFail exReqA = none ∧
    cachesMatch exStoreA exReqA.url.full = some exRespA ∧
    cacheFirstStrategy netFail exReqA CACHE_NAME exStoreA = (some exRespA, exStoreA) :=
  ⟨rfl, rfl, cacheFirst_hit_offline netFail exReqA CACHE_NAME exStoreA exRespA rfl rfl⟩

/-- C5: a non-GET request is never intercepted: the listener lets it pass
through and no cache generation is read or written. -/
theorem non_get_pass_through (net : Network) (r : Request) (s : CacheStorage)
    (h : r.method ≠ "GET") :
    handleFetch net r s = (FetchOutcome.passThrough, s) := by
  have hb : (r.method != "GET") = true := bne_iff_ne.mpr h
  simp [handleFetch, fetchListener, hb]

theorem non_get_pass_through_witness :
    exReqPost.method ≠ "GET" ∧
    handleFetch netFail exReqPost exStoreA = (FetchOutcome.passThrough, exStoreA) :=
  ⟨by decide, non_get_pass_through netFail exReqPost exStoreA (by decide)⟩

/-- C8: a navigation (document-destination) GET request with no cached
entry and a throwing network fetch is answered with exactly the stored
offline document. -/
theorem nav_fallback_offline (net : Network) (r : Request) (cn : String)
    (s : CacheStorage) (offlineDoc : Response)
    (hmiss : cachesMatch s r.url.full = none)
    (hnet : net r = none)
    (hdoc : r.destination = "document")
    (hoff : cachesMatch s "./index.html" = some offlineDoc) :
    (cacheFirstStrategy net r cn s).1 = some offlineDoc := by
  simp [cacheFirstStrategy, hmiss, hnet, hdoc, hoff]

theorem nav_fallback_offline_witness :
    cachesMatch exStoreIndex exNavReq.url.full = none ∧
    netFail exNavReq = none ∧
    exNavReq.destination = "document" ∧
    cachesMatch exStoreIndex "./index.html" = some exIndexResp ∧
    (cacheFirstStrategy netFail exNavReq CACHE_NAME exStoreIndex).1 = some exIndexResp :=
  ⟨rfl, rfl, rfl, rfl,
   nav_fallback_offline netFail exNavReq CACHE_NAME exStoreIndex exIndexResp rfl rfl rfl rfl⟩

/-- C9: a non-navigation GET request with no cached entry and a throwing
network fetch is answered with the synthesized response: empty body,
status 408, status text "Offline". -/
theorem non_nav_fallback_offline (net : Network) (r : Request) (cn : String)
    (s : CacheStorage)
    (hmiss : cachesMatch s r.url.full = none)
    (hnet : net r = none)
    (hdoc : r.destination ≠ "document") :
    (cacheFirstStrategy net r cn s).1 =
      some { status := 408, statusText := "Offline", body := "" } := by
  have hb : (r.destination == "document") = false := beq_eq_false_iff_ne.mpr hdoc
  simp [cacheFirstStrategy, hmiss, hnet, hb, offlineResponse]

theorem non_nav_fallback_offline_witness :
    cachesMatch exStoreIndex exStyleReq.url.full = none ∧
    netFail exStyleReq = none ∧
    exStyleReq.destination ≠ "document" ∧
    (cacheFirstStrategy netFail exStyleReq CACHE_NAME exStoreIndex).1 =
      some { status := 408, statusText := "Offline", body := "" } :=
  ⟨rfl, rfl, by decide,
   non_nav_fallback_offline netFail exStyleReq CACHE_NAME exStoreIndex rfl rfl (by decide)⟩

/-- C2, counterexample: the request to `https://example.com/a` is routed
to the primary generation, the primary generation holds no entry for it
(it does not even exist), yet the strategy serves the entry stored in the
external generation: lookups are not confined to the routed generation. -/
theorem cross_generation_lookup :
    fetchListener exReqA = FetchDecision.respondWith CACHE_NAME ∧
    (cacheFirstStrategy netFail exReqA CACHE_NAME exStoreA).1 = some exRespA ∧
    lookupIn exStoreA CACHE_NAME exReqA.url.full = none ∧
    lookupIn exStoreA EXTERNAL_CACHE_NAME exReqA.url.full = some exRespA :=
  ⟨rfl, rfl, rfl, rfl⟩

/-! Association-list lemmas about the cache primitives. -/

theorem entryGet_overwrite (req : Request) (resp : Response) (c : Cache) :
    entryGet (c.map (fun e => if e.1.url.full == req.url.full then (req, resp) else e))
        req.url.full =
      (if c.any (fun e => e.1.url.full == req.url.full) then some resp else none) := by
  induction c with
  | nil => simp [entryGet]
  | cons e t ih =>
    by_cases he : e.1.url.full = req.url.full
    · simp [entryGet, he]
    · have heb : (e.1.url.full == req.url.full) = false := beq_eq_false_iff_ne.mpr he
      simp only [List.any_cons, heb, Bool.false_or, List.map_cons]
      simpa [entryGet, he] using ih

theorem entryGet_entryPut_self (c : Cache) (req : Request) (resp : Response) :
    entryGet (entryPut c req resp) req.url.full = some resp := by
  unfold entryPut
  by_cases h : c.any (fun e => e.1.url.full == req.url.full) = true
  · rw [if_pos h, entryGet_overwrite, if_pos h]
  · rw [if_neg h]
    have hall : ∀ e ∈ c, ¬((e.1.url.full == req.url.full) = true) := by
      intro e he hb
      exact h (List.any_eq_true.mpr ⟨e, he, hb⟩)
    have hnone : c.find? (fun e => e.1.url.full == req.url.full) = none :=
      List.find?_eq_none.mpr hall
    simp [entryGet, List.find?_append, hnone]

theorem cacheGet_cachePut (s : CacheStorage) (name : String) (req : Request)
    (resp : Response) :
    cacheGet (cachePut s name req resp) name =
      (cacheGet s name).map (fun c => entryPut c req resp) := by
  induction s with
  | nil => rfl
  | cons a t ih =>
    by_cases h : a.1 = name
    · simp [cacheGet, cachePut, h]
    · simpa [cacheGet, cachePut, h] using ih

theorem cacheGet_cachesOpen_self (s : CacheStorage) (name : String) :
    cacheGet (cachesOpen s name) name = some ((cacheGet s name).getD []) := by
  unfold cachesOpen
  by_cases h : s.any (fun c => c.1 == name) = true
  · rw [if_pos h]
    cases hfind : s.find? (fun c => c.1 == name) with
    | none =>
        obtain ⟨c, hc, hcn⟩ := List.any_eq_true.mp h
        exact absurd hcn (List.find?_eq_none.mp hfind c hc)
    | some a => simp [cacheGet, hfind]
  · rw [if_neg h]
    have hall : ∀ c ∈ s, ¬((c.1 == name) = true) := by
      intro c hc hcn
      exact h (List.any_eq_true.mpr ⟨c, hc, hcn⟩)
    have hnone : s.find? (fun c => c.1 == name) = none := List.find?_eq_none.mpr hall
    simp [cacheGet, List.find?_append, hnone]

theorem lookupIn_open_put_self (s : CacheStorage) (cn : String) (req : Request)
    (resp : Response) :
    lookupIn (cachePut (cachesOpen s cn) cn req resp) cn req.url.full = some resp := by
  unfold lookupIn
  rw [cacheGet_cachePut, cacheGet_cachesOpen_self]
  simp [entryGet_entryPut_self]

theorem cacheGet_cachesOpen_other (s : CacheStorage) (n m : String) (h : n ≠ m) :
    cacheGet (cachesOpen s m) n = cacheGet s n := by
  unfold cachesOpen
  by_cases hm : s.any (fun c => c.1 == m) = true
  · rw [if_pos hm]
  · rw [if_neg hm]
    have hmn : (m == n) = false := beq_eq_false_iff_ne.mpr (fun e => h e.symm)
    simp [cacheGet, List.find?_append, hmn]

theorem cacheGet_cachePut_other (s : CacheStorage) (n m : String) (req : Request)
    (resp : Response) (h : n ≠ m) :
    cacheGet (cachePut s m req resp) n = cacheGet s n := by
  induction s with
  | nil => rfl
  | cons a t ih =>
    by_cases hn : a.1 = n
    · simp [cacheGet, cachePut, hn, h]
    · by_cases ham : a.1 = m
      · simpa [cacheGet, cachePut, hn, ham, Ne.symm h] using ih
      · simpa [cacheGet, cachePut, hn, ham] using ih

theorem cacheGet_updateCache_other (net : Network) (r : Request) (cn : String)
    (s : CacheStorage) (n : String) (h : n ≠ cn) :
    cacheGet (updateCache net r cn s) n = cacheGet s n := by
  cases hnet : net r with
  | none => simp [updateCache, hnet]
  | some resp =>
    by_cases hs : resp.status = 200
    · have h1 := cacheGet_cachesOpen_other s n cn h
      have h2 := cacheGet_cachePut_other (cachesOpen s cn) n cn r resp h
      simp [updateCache, hnet, hs, h2, h1]
    · simp [updateCache, hnet, hs]

theorem cacheGet_strategy_other (net : Network) (r : Request) (cn : String)
    (s : CacheStorage) (n : String) (h : n ≠ cn) :
    cacheGet (cacheFirstStrategy net r cn s).2 n = cacheGet s n := by
  cases hm : cachesMatch s r.url.full with
  | some c =>
      have hu := cacheGet_updateCache_other net r cn s n h
      simp [cacheFirstStrategy, hm, hu]
  | none =>
    cases hnet : net r with
    | some resp =>
        by_cases hs : resp.status = 200
        · have h1 := cacheGet_cachesOpen_other s n cn h
          have h2 := cacheGet_cachePut_other (cachesOpen s cn) n cn r resp h
          simp [cacheFirstStrategy, hm, hnet, hs, h2, h1]
        · simp [cacheFirstStrategy, hm, hnet, hs]
    | none =>
        by_cases hd : r.destination = "document"
        · simp [cacheFirstStrategy, hm, hnet, hd]
        · simp [cacheFirstStrategy, hm, hnet, hd]

/-- A network that serves exactly one URL with a 200 response. -/
def exNetA : Network :=
  fun r => if r.url.full == "./missing.css" then some exRespA else none

/-- A 204 No Content response: a success status, but not 200. -/
def exResp204 : Response := { status := 204, statusText := "No Content", body := "" }

/-- A network that serves exactly one URL with the 204 response. -/
def exNet204 : Network :=
  fun r => if r.url.full == "./missing.css" then some exResp204 else none

/-- C3, counterexample: a cache miss whose fetch resolves with 204 — a
success status — is returned to the caller, yet nothing is stored: the
storage is still empty when the strategy returns, because line 130 of the
source persists only on status exactly 200. -/
theorem miss_path_success_not_stored :
    Response.ok exResp204 = true ∧
    cachesMatch [] exStyleReq.url.full = none ∧
    exNet204 exStyleReq = some exResp204 ∧
    (cacheFirstStrategy exNet204 exStyleReq CACHE_NAME []).1 = some exResp204 ∧
    (cacheFirstStrategy exNet204 exStyleReq CACHE_NAME []).2 = [] ∧
    lookupIn (cacheFirstStrategy exNet204 exStyleReq CACHE_NAME []).2 CACHE_NAME
      exStyleReq.url.full = none :=
  ⟨rfl, rfl, rfl, rfl, rfl, rfl⟩

/-- C3 (amended): on a cache miss whose network fetch resolves, the entry
is stored in the chosen generation before the response is returned only
when the status is exactly 200; a response with any other status (other
success statuses such as 204 included) is returned to the caller
unchanged, with nothing stored. -/
theorem miss_path_store_policy (net : Network) (r : Request) (cn : String)
    (s : CacheStorage) (resp : Response)
    (hmiss : cachesMatch s r.url.full = none)
    (hnet : net r = some resp) :
    (resp.status = 200 →
      (cacheFirstStrategy net r cn s).1 = some resp ∧
      lookupIn (cacheFirstStrategy net r cn s).2 cn r.url.full = some resp) ∧
    (resp.status ≠ 200 → cacheFirstStrategy net r cn s = (some resp, s)) := by
  constructor
  · intro hok
    have hb : (resp.status == 200) = true := by simp [hok]
    simp [cacheFirstStrategy, hmiss, hnet, hb, lookupIn_open_put_self]
  · intro hne
    have hb : (resp.status == 200) = false := beq_eq_false_iff_ne.mpr hne
    simp [cacheFirstStrategy, hmiss, hnet, hb]

theorem miss_path_store_policy_witness :
    (cachesMatch [] exStyleReq.url.full = none ∧
     exNetA exStyleReq = some exRespA ∧ exRespA.status = 200 ∧
     ((cacheFirstStrategy exNetA exStyleReq CACHE_NAME []).1 = some exRespA ∧
      lookupIn (cacheFirstStrategy exNetA exStyleReq CACHE_NAME []).2 CACHE_NAME
        exStyleReq.url.full = some exRespA)) ∧
    (exNet204 exStyleReq = some exResp204 ∧ exResp204.status ≠ 200 ∧
     cacheFirstStrategy exNet204 exStyleReq CACHE_NAME [] = (some exResp204, [])) :=
  ⟨⟨rfl, rfl, rfl,
    (miss_path_store_policy exNetA exStyleReq CACHE_NAME [] exRespA rfl rfl).1 rfl⟩,
   ⟨rfl, by decide,
    (miss_path_store_policy exNet204 exStyleReq CACHE_NAME [] exResp204 rfl rfl).2
      (by decide)⟩⟩

/-- C2 (amended): routing picks the external generation exactly for the
two font-provider origins and the primary generation for every other
origin, and all writes of the strategy touch only the routed generation;
lookups, however, search every generation (see `cross_generation_lookup`). -/
theorem routing_and_write_locality :
    (∀ r : Request, r.method = "GET" → r.url.protocol ≠ "chrome-extension:" →
      fetchListener r =
        FetchDecision.respondWith
          (if r.url.origin = "https://fonts.googleapis.com"
             ∨ r.url.origin = "https://fonts.gstatic.com"
           then EXTERNAL_CACHE_NAME else CACHE_NAME)) ∧
    (∀ (net : Network) (r : Request) (cn : String) (s : CacheStorage) (n : String),
      n ≠ cn → cacheGet (cacheFirstStrategy net r cn s).2 n = cacheGet s n) := by
  constructor
  · intro r hm hp
    have hb : (r.method != "GET") = false := by simp [hm]
    have hpb : (r.url.protocol == "chrome-extension:") = false := beq_eq_false_iff_ne.mpr hp
    by_cases ho : r.url.origin = "https://fonts.googleapis.com"
        ∨ r.url.origin = "https://fonts.gstatic.com"
    · have hob : (r.url.origin == "https://fonts.googleapis.com"
           || r.url.origin == "https://fonts.gstatic.com") = true := by
        rcases ho with h1 | h1 <;> simp [h1]
      simp [fetchListener, hb, hpb, hob, ho]
    · have hob : (r.url.origin == "https://fonts.googleapis.com"
           || r.url.origin == "https://fonts.gstatic.com") = false := by
        push_neg at ho
        simp [beq_eq_false_iff_ne, ho.1, ho.2]
      simp [fetchListener, hb, hpb, hob, ho]
  · intro net r cn s n h
    exact cacheGet_strategy_other net r cn s n h

theorem routing_and_write_locality_witness :
    (exReqA.method = "GET" ∧ exReqA.url.protocol ≠ "chrome-extension:" ∧
     fetchListener exReqA = FetchDecision.respondWith CACHE_NAME) ∧
    (EXTERNAL_CACHE_NAME ≠ CACHE_NAME ∧
     cacheGet (cacheFirstStrategy netFail exReqA CACHE_NAME exStoreA).2
       EXTERNAL_CACHE_NAME = cacheGet exStoreA EXTERNAL_CACHE_NAME) := by
  constructor
  · refine ⟨rfl, by decide, ?_⟩
    have h := routing_and_write_locality.1 exReqA rfl (by decide)
    simpa using h
  · exact ⟨by decide,
      routing_and_write_locality.2 netFail exReqA CACHE_NAME exStoreA
        EXTERNAL_CACHE_NAME (by decide)⟩

/-! Lemmas about generation deletion. -/

theorem mem_cachesDelete (s : CacheStorage) (name : String) (c : String × Cache) :
    c ∈ cachesDelete s name ↔ c ∈ s ∧ c.1 ≠ name := by
  simp [cachesDelete, List.mem_filter]

theorem mem_foldl_delete_if (p : String → Bool) :
    ∀ (l : List String) (s : CacheStorage) (c : String × Cache),
      c ∈ l.foldl (fun acc n => if p n then cachesDelete acc n else acc) s ↔
        c ∈ s ∧ (c.1 ∈ l → p c.1 = false) := by
  intro l
  induction l with
  | nil => intro s c; simp
  | cons a t ih =>
    intro s c
    simp only [List.foldl_cons]
    rw [ih]
    by_cases hpa : p a = true
    · simp only [if_pos hpa, mem_cachesDelete, List.mem_cons]
      constructor
      · rintro ⟨⟨hcs, hne⟩, ht⟩
        refine ⟨hcs, ?_⟩
        rintro (he | hm)
        · exact absurd he hne
        · exact ht hm
      · rintro ⟨hcs, himp⟩
        have hne : c.1 ≠ a := by
          intro he
          have hf := himp (Or.inl he)
          rw [he, hpa] at hf
          exact Bool.noConfusion hf
        exact ⟨⟨hcs, hne⟩, fun hm => himp (Or.inr hm)⟩
    · have hpa' : p a = false := by simpa using hpa
      simp only [if_neg hpa, List.mem_cons]
      constructor
      · rintro ⟨hcs, ht⟩
        refine ⟨hcs, ?_⟩
        rintro (he | hm)
        · rw [he]; exact hpa'
        · exact ht hm
      · rintro ⟨hcs, himp⟩
        exact ⟨hcs, fun hm => himp (Or.inr hm)⟩

theorem mem_foldl_delete_all :
    ∀ (l : List String) (s : CacheStorage) (c : String × Cache),
      c ∈ l.foldl (fun acc n => cachesDelete acc n) s ↔ c ∈ s ∧ c.1 ∉ l := by
  intro l
  induction l with
  | nil => intro s c; simp
  | cons a t ih =>
    intro s c
    simp only [List.foldl_cons]
    rw [ih]
    simp only [mem_cachesDelete, List.mem_cons]
    constructor
    · rintro ⟨⟨hcs, hne⟩, hnt⟩
      exact ⟨hcs, fun h => h.elim hne hnt⟩
    · rintro ⟨hcs, hn⟩
      exact ⟨⟨hcs, fun he => hn (Or.inl he)⟩, fun hm => hn (Or.inr hm)⟩

theorem clearAllCaches_eq_nil (s : CacheStorage) : clearAllCaches s = [] := by
  have h : ∀ c : String × Cache, c ∉ clearAllCaches s := by
    intro c hc
    unfold clearAllCaches at hc
    have hm := (mem_foldl_delete_all (cachesKeys s) s c).mp hc
    apply hm.2
    unfold cachesKeys
    exact List.mem_map.mpr ⟨c, hm.1, rfl⟩
  exact List.eq_nil_iff_forall_not_mem.mpr h

/-- C4: after the activate cleanup, every generation name still
enumerable is one of the three recognized names, and every generation
bearing a recognized name survives the cleanup untouched. -/
theorem activate_cleanup_correct (s : CacheStorage) :
    (∀ n, n ∈ cachesKeys (activateCleanup s) →
        n = CACHE_NAME ∨ n = EXTERNAL_CACHE_NAME ∨ n = DATA_CACHE_NAME) ∧
    (∀ c : String × Cache, c ∈ s →
        (c.1 = CACHE_NAME ∨ c.1 = EXTERNAL_CACHE_NAME ∨ c.1 = DATA_CACHE_NAME) →
        c ∈ activateCleanup s) := by
  constructor
  · intro n hn
    unfold cachesKeys at hn
    obtain ⟨c, hc, hcn⟩ := List.mem_map.mp hn
    unfold activateCleanup at hc
    have hm := (mem_foldl_delete_if
      (fun m => m != CACHE_NAME && m != EXTERNAL_CACHE_NAME && m != DATA_CACHE_NAME)
      (cachesKeys s) s c).mp hc
    have hkey : c.1 ∈ cachesKeys s := by
      unfold cachesKeys
      exact List.mem_map.mpr ⟨c, hm.1, rfl⟩
    have hp := hm.2 hkey
    rw [hcn] at hp
    by_contra hnone
    push_neg at hnone
    simp [hnone.1, hnone.2.1, hnone.2.2] at hp
  · intro c hcs hrec
    unfold activateCleanup
    refine (mem_foldl_delete_if
      (fun m => m != CACHE_NAME && m != EXTERNAL_CACHE_NAME && m != DATA_CACHE_NAME)
      (cachesKeys s) s c).mpr ⟨hcs, ?_⟩
    intro _
    rcases hrec with h | h | h <;> simp [h]

/-- The stale old-version generation alongside the current one. -/
def exActivateStore : CacheStorage :=
  [("behavana-v0.9.0", []), (CACHE_NAME, [])]

theorem activate_cleanup_correct_witness :
    (CACHE_NAME, ([] : Cache)) ∈ exActivateStore ∧
    (CACHE_NAME = CACHE_NAME ∨ CACHE_NAME = EXTERNAL_CACHE_NAME
      ∨ CACHE_NAME = DATA_CACHE_NAME) ∧
    (CACHE_NAME, ([] : Cache)) ∈ activateCleanup exActivateStore :=
  ⟨by simp [exActivateStore], Or.inl rfl,
   (activate_cleanup_correct exActivateStore).2 (CACHE_NAME, [])
     (by simp [exActivateStore]) (Or.inl rfl)⟩

/-- C10: a `CLEAR_CACHE` message deletes every cache generation
(the storage becomes empty), so a subsequent request whose network fetch
throws takes the fallback path: no response at all for a navigation
request (the offline page itself is gone) and the synthesized 408
"Offline" response for everything else. -/
theorem clear_cache_then_fallback (s : CacheStorage) (net : Network) (r : Request)
    (cn : String) (hnet : net r = none) :
    (handleMessage (some { type := "CLEAR_CACHE" }) s).1 = [] ∧
    (cacheFirstStrategy net r cn (handleMessage (some { type := "CLEAR_CACHE" }) s).1).1 =
      (if r.destination = "document" then none else some offlineResponse) := by
  have hclear : (handleMessage (some { type := "CLEAR_CACHE" }) s).1 = [] := by
    simp [handleMessage, clearAllCaches_eq_nil]
  refine ⟨hclear, ?_⟩
  rw [hclear]
  by_cases hd : r.destination = "document"
  · simp [cacheFirstStrategy, cachesMatch, hnet, hd]
  · simp [cacheFirstStrategy, cachesMatch, hnet, hd]

theorem clear_cache_then_fallback_witness :
    netFail exStyleReq = none ∧
    ((handleMessage (some { type := "CLEAR_CACHE" }) exStoreA).1 = [] ∧
     (cacheFirstStrategy netFail exStyleReq CACHE_NAME
        (handleMessage (some { type := "CLEAR_CACHE" }) exStoreA).1).1 =
       (if exStyleReq.destination = "document" then none else some offlineResponse)) :=
  ⟨rfl, clear_cache_then_fallback exStoreA netFail exStyleReq CACHE_NAME rfl⟩

/-! Preservation of the cache-entry invariant. -/

theorem goodCache_entryPut (c : Cache) (req : Request) (resp : Response)
    (hc : goodCache c = true) (hreq : req.method = "GET") (hresp : resp.ok = true) :
    goodCache (entryPut c req resp) = true := by
  unfold entryPut
  by_cases h : c.any (fun e => e.1.url.full == req.url.full) = true
  · rw [if_pos h]
    rw [goodCache, List.all_eq_true] at hc ⊢
    intro e he
    obtain ⟨e0, he0, rfl⟩ := List.mem_map.mp he
    by_cases h0 : e0.1.url.full = req.url.full
    · simp [h0, goodEntry, hreq, hresp]
    · simpa [h0] using hc e0 he0
  · rw [if_neg h]
    rw [goodCache, List.all_eq_true] at hc ⊢
    intro e he
    rcases List.mem_append.mp he with h1 | h1
    · exact hc e h1
    · have : e = (req, resp) := by simpa using h1
      simp [this, goodEntry, hreq, hresp]

theorem goodStore_cachesOpen (s : CacheStorage) (name : String)
    (hs : goodStore s = true) : goodStore (cachesOpen s name) = true := by
  unfold cachesOpen
  by_cases h : s.any (fun c => c.1 == name) = true
  · rw [if_pos h]; exact hs
  · rw [if_neg h]
    rw [goodStore, List.all_eq_true] at hs ⊢
    intro c hc
    rcases List.mem_append.mp hc with h1 | h1
    · exact hs c h1
    · have : c = (name, []) := by simpa using h1
      simp [this, goodCache]

theorem goodStore_cachePut (s : CacheStorage) (name : String) (req : Request)
    (resp : Response) (hs : goodStore s = true) (hreq : req.method = "GET")
    (hresp : resp.ok = true) : goodStore (cachePut s name req resp) = true := by
  rw [goodStore, List.all_eq_true] at hs ⊢
  intro c hc
  unfold cachePut at hc
  obtain ⟨c0, hc0, rfl⟩ := List.mem_map.mp hc
  by_cases h0 : c0.1 = name
  · have := goodCache_entryPut c0.2 req resp (hs c0 hc0) hreq hresp
    simpa [h0] using this
  · simpa [h0] using hs c0 hc0

theorem goodStore_updateCache (net : Network) (r : Request) (cn : String)
    (s : CacheStorage) (hreq : r.method = "GET") (hs : goodStore s = true) :
    goodStore (updateCache net r cn s) = true := by
  cases hnet : net r with
  | none => simpa [updateCache, hnet] using hs
  | some resp =>
    by_cases hst : resp.status = 200
    · have hok : resp.ok = true := by simp [Response.ok, hst]
      have := goodStore_cachePut (cachesOpen s cn) cn r resp
        (goodStore_cachesOpen s cn hs) hreq hok
      simpa [updateCache, hnet, hst] using this
    · simpa [updateCache, hnet, hst] using hs

theorem goodStore_strategy (net : Network) (r : Request) (cn : String)
    (s : CacheStorage) (hreq : r.method = "GET") (hs : goodStore s = true) :
    goodStore (cacheFirstStrategy net r cn s).2 = true := by
  cases hm : cachesMatch s r.url.full with
  | some c =>
      have := goodStore_updateCache net r cn s hreq hs
      simpa [cacheFirstStrategy, hm] using this
  | none =>
    cases hnet : net r with
    | some resp =>
        by_cases hst : resp.status = 200
        · have hok : resp.ok = true := by simp [Response.ok, hst]
          have := goodStore_cachePut (cachesOpen s cn) cn r resp
            (goodStore_cachesOpen s cn hs) hreq hok
          simpa [cacheFirstStrategy, hm, hnet, hst] using this
        · simpa [cacheFirstStrategy, hm, hnet, hst] using hs
    | none =>
        by_cases hd : r.destination = "document"
        · simpa [cacheFirstStrategy, hm, hnet, hd] using hs
        · simpa [cacheFirstStrategy, hm, hnet, hd] using hs

theorem goodStore_handleFetch (net : Network) (r : Request) (s : CacheStorage)
    (hs : goodStore s = true) : goodStore (handleFetch net r s).2 = true := by
  unfold handleFetch
  cases hfl : fetchListener r with
  | passThrough => simpa using hs
  | respondWith cn =>
    have hreq : r.method = "GET" := by
      by_contra hne
      have hb : (r.method != "GET") = true := bne_iff_ne.mpr hne
      simp [fetchListener, hb] at hfl
    have hgood := goodStore_strategy net r cn s hreq hs
    rcases hres : cacheFirstStrategy net r cn s with ⟨o, s'⟩
    rw [hres] at hgood
    rcases o with _ | r0
    · simpa [hres] using hgood
    · simpa [hres] using hgood

theorem fetchAllOk_good (net : Network) :
    ∀ (urls : List String) (pairs : List (Request × Response)),
      fetchAllOk net urls = some pairs →
      ∀ p ∈ pairs, p.1.method = "GET" ∧ p.2.ok = true := by
  intro urls
  induction urls with
  | nil =>
      intro pairs h p hp
      simp only [fetchAllOk, Option.some.injEq] at h
      subst h
      simp at hp
  | cons u rest ih =>
      intro pairs h p hp
      cases hnet : net (mkGetRequest u) with
      | none => simp [fetchAllOk, hnet] at h
      | some r0 =>
          by_cases hok : r0.ok = true
          · simp [fetchAllOk, hnet, hok] at h
            obtain ⟨tl, hrest, hcons⟩ := h
            subst hcons
            rcases List.mem_cons.mp hp with hp1 | hp1
            · subst hp1
              exact ⟨rfl, hok⟩
            · exact ih tl hrest p hp1
          · simp [fetchAllOk, hnet, hok] at h

theorem goodStore_foldl_put (name : String) :
    ∀ (pairs : List (Request × Response)) (s0 : CacheStorage),
      goodStore s0 = true →
      (∀ p ∈ pairs, p.1.method = "GET" ∧ p.2.ok = true) →
      goodStore (pairs.foldl (fun acc pr => cachePut acc name pr.1 pr.2) s0) = true := by
  intro pairs
  induction pairs with
  | nil => intro s0 h0 _; simpa using h0
  | cons p t ih =>
      intro s0 h0 hall
      simp only [List.foldl_cons]
      apply ih
      · exact goodStore_cachePut s0 name p.1 p.2 h0
          (hall p (by simp)).1 (hall p (by simp)).2
      · intro q hq
        exact hall q (by simp [hq])

theorem cacheAddAll_good (net : Network) (s : CacheStorage) (name : String)
    (urls : List String) (s' : CacheStorage)
    (hs : goodStore s = true) (h : cacheAddAll net s name urls = some s') :
    goodStore s' = true := by
  unfold cacheAddAll at h
  cases hfa : fetchAllOk net urls with
  | none => rw [hfa] at h; simp at h
  | some pairs =>
      rw [hfa] at h
      simp only [Option.some.injEq] at h
      subst h
      exact goodStore_foldl_put name pairs (cachesOpen s name)
        (goodStore_cachesOpen s name hs) (fetchAllOk_good net urls pairs hfa)

/-- C6: the cache-entry invariant — every entry holds a success-status
response and a GET request — is preserved by every operation: the fetch
handler (foreground miss-path write and background refresh), the
background refresh on any GET request, and the install pre-population. -/
theorem cache_entry_invariant :
    (∀ (net : Network) (r : Request) (s : CacheStorage),
        goodStore s = true → goodStore (handleFetch net r s).2 = true) ∧
    (∀ (net : Network) (r : Request) (cn : String) (s : CacheStorage),
        r.method = "GET" → goodStore s = true →
        goodStore (updateCache net r cn s) = true) ∧
    (∀ (net : Network) (s s' : CacheStorage) (b : Bool),
        goodStore s = true → installHandler net s = some (s', b) →
        goodStore s' = true) := by
  refine ⟨goodStore_handleFetch, goodStore_updateCache, ?_⟩
  intro net s s' b hs hinst
  cases h1 : cacheAddAll net s CACHE_NAME CACHE_URLS with
  | none =>
      have hval : installHandler net s = none := by simp [installHandler, h1]
      rw [hval] at hinst
      exact absurd hinst (by simp)
  | some s1 =>
      have hs1 := cacheAddAll_good net s CACHE_NAME CACHE_URLS s1 hs h1
      cases h2 : cacheAddAll net s1 EXTERNAL_CACHE_NAME EXTERNAL_URLS with
      | none =>
          have hval : installHandler net s = some (s1, true) := by
            simp [installHandler, h1, h2]
          rw [hval] at hinst
          simp only [Option.some.injEq, Prod.mk.injEq] at hinst
          rw [← hinst.1]
          exact hs1
      | some s2 =>
          have hval : installHandler net s = some (s2, true) := by
            simp [installHandler, h1, h2]
          rw [hval] at hinst
          simp only [Option.some.injEq, Prod.mk.injEq] at hinst
          rw [← hinst.1]
          exact cacheAddAll_good net s1 EXTERNAL_CACHE_NAME EXTERNAL_URLS s2 hs1 h2

theorem cache_entry_invariant_witness :
    goodStore exStoreA = true ∧
    goodStore (handleFetch netFail exReqA exStoreA).2 = true :=
  ⟨rfl, cache_entry_invariant.1 netFail exReqA exStoreA rfl⟩

/-- C7: failure of the primary bulk pre-population fails install (result
`none`, blocking activation); failure of the external pre-population is
caught, leaving the primary result in place; in every completing case the
worker signals `skipWaiting` (the `true` flag). -/
theorem install_error_policy (net : Network) (s : CacheStorage) :
    (cacheAddAll net s CACHE_NAME CACHE_URLS = none → installHandler net s = none) ∧
    (∀ s1, cacheAddAll net s CACHE_NAME CACHE_URLS = some s1 →
      cacheAddAll net s1 EXTERNAL_CACHE_NAME EXTERNAL_URLS = none →
      installHandler net s = some (s1, true)) ∧
    (∀ s1 s2, cacheAddAll net s CACHE_NAME CACHE_URLS = some s1 →
      cacheAddAll net s1 EXTERNAL_CACHE_NAME EXTERNAL_URLS = some s2 →
      installHandler net s = some (s2, true)) := by
  refine ⟨?_, ?_, ?_⟩
  · intro h1
    simp [installHandler, h1]
  · intro s1 h1 h2
    simp [installHandler, h1, h2]
  · intro s1 s2 h1 h2
    simp [installHandler, h1, h2]

/-- A network that serves only the local shell files, with status 200. -/
def exNetLocal : Network :=
  fun r => if r.url.full ∈ CACHE_URLS
           then some { status := 200, statusText := "OK", body := "ok" }
           else none

theorem install_error_policy_witness :
    (cacheAddAll netFail ([] : CacheStorage) CACHE_NAME CACHE_URLS = none ∧
     installHandler netFail ([] : CacheStorage) = none) ∧
    (cacheAddAll exNetLocal ([] : CacheStorage) CACHE_NAME CACHE_URLS =
       some ((cacheAddAll exNetLocal ([] : CacheStorage) CACHE_NAME CACHE_URLS).getD []) ∧
     installHandler exNetLocal ([] : CacheStorage) =
       some ((cacheAddAll exNetLocal ([] : CacheStorage) CACHE_NAME CACHE_URLS).getD [],
             true)) :=
  ⟨⟨rfl, (install_error_policy netFail []).1 rfl⟩,
   ⟨rfl, (install_error_policy exNetLocal []).2.1 _ rfl rfl⟩⟩
